import Mathlib

/-!
Verification of the homedns resolution/routing engine against its
natural-language specification.

The definitions below are a shallow embedding of the Python sources:
`homedns/adblock.py` (rule classifier), `homedns/loader.py` (staleness
predicate) and `homedns/server.py` (upstream dispatch and worker loop).
Python strings are modelled as `List Char`; Python `set`s as lists with
membership semantics; the shared upstream table (`globalvars.upstreams`)
as a function from names to per-upstream state.
-/

namespace HomeDNS

/-- A Python string: a finite sequence of unicode code points. -/
abbrev Str := List Char

/-- The character list of a Lean string literal (used for concrete inputs). -/
def strOf (s : String) : Str := s.data

/-- Python whitespace characters recognised by `str.strip()` (ASCII part). -/
def isPySpace (c : Char) : Bool :=
  c == ' ' || c == '\t' || c == '\n' || c == '\x0d' || c == '\x0b' || c == '\x0c'

/-- Python `s.strip()`: remove leading and trailing whitespace. -/
def pyStrip (s : Str) : Str :=
  ((s.dropWhile isPySpace).reverse.dropWhile isPySpace).reverse

/-- Python `s.lstrip(chars)`: remove every leading character that is in `chars`. -/
def pyLstrip (chars : List Char) (s : Str) : Str :=
  s.dropWhile (fun c => chars.contains c)

/-- Indices `i` of `s` (including `s.length`) at which `sep` occurs as a leading
block of `s.drop i`; in ascending order. -/
def subIndices (sep s : Str) : List Nat :=
  (List.range (s.length + 1)).filter (fun i => sep.isPrefixOf (s.drop i))

/-- Python `s.rpartition(sep)[2]`: the part after the LAST occurrence of `sep`,
or the whole string when `sep` does not occur (Python returns `('', '', s)`). -/
def pyRpartAfter (sep s : Str) : Str :=
  match (subIndices sep s).getLast? with
  | some i => s.drop (i + sep.length)
  | none => s

/-- Python `s.partition(sep)[0]`: the part before the FIRST occurrence of `sep`,
or the whole string when `sep` does not occur (Python returns `(s, '', '')`). -/
def pyPartBefore (sep s : Str) : Str :=
  match (subIndices sep s).head? with
  | some i => s.take i
  | none => s

/-- Python `s.partition(sep)`, reduced to the pair (part before, part after):
on a miss Python returns `(s, '', '')`, so the pair is `(s, [])`. -/
def pyPartPair (sep s : Str) : Str × Str :=
  match (subIndices sep s).head? with
  | some i => (s.take i, s.drop (i + sep.length))
  | none => (s, [])

/-- Python `s.isdigit()` (ASCII part): non-empty and all digits. -/
def pyIsdigit (s : Str) : Bool :=
  !s.isEmpty && s.all Char.isDigit

/-- Python `host[-n:]`: for `n = 0` this is `host[0:]`, i.e. the whole string;
for `n > 0` it is the trailing `n` characters (all of `host` when `n` exceeds
its length, by Python's slice clamping — matched here by truncated `Nat`
subtraction). -/
def pyNegSlice (host : Str) (n : Nat) : Str :=
  if n = 0 then host else host.drop (host.length - n)

/-! ### Rule classifier: `Adblock._inList` / `isBlock` (adblock.py lines 80-93) -/

/-- `Adblock._inList`: some `domain` in the list satisfies
`domain == '*' or host[-len(domain):] == domain`. -/
def inList (domainList : List Str) (host : Str) : Bool :=
  domainList.any (fun domain => domain == strOf "*" || pyNegSlice host domain.length == domain)

/-- `Adblock.isBlock`: `not self.isWhite(host) and self.isBlack(host)`. -/
def isBlock (black white : List Str) (host : Str) : Bool :=
  !(inList white host) && inList black host

/-! ### Rule compiler: `Adblock.create` (adblock.py lines 50-78) -/

/-- The domain-extraction part of the `Adblock.create` loop body (adblock.py
lines 61-76): scheme removal, path removal, the IP-literal and no-dot skips,
wildcard handling, and the leading `||` / `.` strips — everything between the
`@@` handling and the final lowercasing. `none` when the line is skipped. -/
def createEntryCore (line0 : Str) : Option Str :=
  let line1 := pyRpartAfter (strOf "://") line0
  let line2 := pyPartBefore (strOf "/") line1
  if pyIsdigit (pyRpartAfter (strOf ".") line2) then none
  else if !(line2.contains '.') then none
  else
    let lp := pyPartPair (strOf "*") line2
    let line3 := if lp.1.contains '.' then lp.1 else lp.2
    some (pyLstrip [ '.' ] (pyLstrip [ '|' ] line3))

/-- One iteration of the `Adblock.create` loop: either `none` (the line is
skipped) or `some (isWhite, entry)` where `entry` is added to the whitelist
when `isWhite` is true, else to the blacklist. Mirrors adblock.py lines 52-78. -/
def createLine (raw : Str) : Option (Bool × Str) :=
  let line := pyStrip raw
  if line.isEmpty then none
  else if line.head? == some '!' || line.head? == some '[' then none
  else
    let isWhite := (strOf "@@").isPrefixOf line
    match createEntryCore (if isWhite then pyLstrip [ '@' ] line else line) with
    | none => none
    | some e => some (isWhite, e.map Char.toLower)

/-- The (isWhite, entry) pairs produced by `Adblock.create` from a line stream. -/
def createEntries (lines : List Str) : List (Bool × Str) :=
  lines.filterMap createLine

/-- The blacklist built by `Adblock.create` from a line stream (fresh instance). -/
def createBlacklist (lines : List Str) : List Str :=
  (createEntries lines).filterMap (fun p => if p.1 then none else some p.2)

/-- The whitelist built by `Adblock.create` from a line stream (fresh instance). -/
def createWhitelist (lines : List Str) : List Str :=
  (createEntries lines).filterMap (fun p => if p.1 then some p.2 else none)

/-! ### Adblock instance state and refresh (adblock.py lines 14-48)

`Adblock.update` runs in a background thread
(`Adblock.async_update`, adblock.py lines 29-38) while `isBlock` keeps being
called from the query path, so its body is modelled as a sequence of atomic
mutation steps on the shared instance state; a concurrent reader can observe
the state after any prefix of the steps. -/

/-- The mutable fields of an `Adblock` instance (adblock.py lines 14-19;
the loader handle itself is modelled separately). -/
structure AdblockState where
  blacklist : List Str
  whitelist : List Str
  updating : Bool
deriving DecidableEq, Repr

/-- One atomic mutation of an `Adblock` instance performed by `update`/`create`:
an assignment to `updating`, a wholesale reset of a set, or a `set.add`. -/
inductive UpdStep where
  | setUpdating : Bool → UpdStep
  | clearBlack : UpdStep
  | clearWhite : UpdStep
  | addBlack : Str → UpdStep
  | addWhite : Str → UpdStep
deriving DecidableEq, Repr

/-- Effect of one mutation step on the instance state. -/
def applyStep (s : AdblockState) : UpdStep → AdblockState
  | .setUpdating b => { s with updating := b }
  | .clearBlack => { s with blacklist := [] }
  | .clearWhite => { s with whitelist := [] }
  | .addBlack d => { s with blacklist := s.blacklist ++ [d] }
  | .addWhite d => { s with whitelist := s.whitelist ++ [d] }

/-- The `set.add` steps performed by `Adblock.create` on a given line stream. -/
def createAdds (lines : List Str) : List UpdStep :=
  (createEntries lines).map (fun p => if p.1 then .addWhite p.2 else .addBlack p.2)

/-- The step sequence of a completed `Adblock.update` (adblock.py lines 40-48):
set `updating`, reset both sets, perform the `create` additions, clear
`updating`. -/
def updateSteps (adds : List UpdStep) : List UpdStep :=
  .setUpdating true :: .clearBlack :: .clearWhite :: (adds ++ [.setUpdating false])

/-- Run a step sequence to completion. -/
def runSteps (s : AdblockState) (steps : List UpdStep) : AdblockState :=
  steps.foldl applyStep s

/-- All states a concurrent reader can observe while a step sequence runs:
the state after each prefix of the steps (including the empty prefix). -/
def viewStates : AdblockState → List UpdStep → List AdblockState
  | s, [] => [s]
  | s, st :: rest => s :: viewStates (applyStep s st) rest

/-- `Adblock.update` as a whole: `some adds` when `loader.open()` succeeds and
`create` performs the additions `adds`; `none` when `loader.open()` raises
(e.g. a failed remote fetch), in which case the exception propagates out of
`update` after `updating` was set and both sets were cleared (adblock.py lines
43-47 run before the raise; line 48 is skipped; there is no try/finally).
Returns the final instance state and whether an exception propagated. -/
def adblockUpdate : Option (List UpdStep) → AdblockState → AdblockState × Bool
  | some adds, s => (runSteps s (updateSteps adds), false)
  | none, s => (runSteps s [.setUpdating true, .clearBlack, .clearWhite], true)

/-! ### Staleness predicates (loader.py lines 100-105, adblock.py lines 24-27) -/

/-- `BaseLoader.isNeedUpdate(refresh)`: for a local source, true iff the last
recorded load time differs from the file's current mtime; for a remote source,
true iff the current wall-clock time strictly exceeds the last load time plus
the refresh interval. The environment (current mtime, current time) is passed
explicitly. -/
def loaderIsNeedUpdate (isLocal : Bool) (lastUpdateTime mtime now refresh : Int) : Bool :=
  if isLocal then decide (lastUpdateTime ≠ mtime)
  else decide (lastUpdateTime + refresh < now)

/-- `Adblock.isNeedUpdate(refresh)`: false while `updating` is set or when
`refresh == 0`, else the loader's staleness predicate. -/
def adblockIsNeedUpdate (s : AdblockState) (refresh : Int) (isLocal : Bool)
    (lastUpdateTime mtime now : Int) : Bool :=
  if s.updating || refresh == 0 then false
  else loaderIsNeedUpdate isLocal lastUpdateTime mtime now refresh

/-! ### Upstream table and dispatch (server.py lines 239-261 and 331-348) -/

/-- A pending exchange: the reply sink (request handler) and the parsed query,
i.e. the tuple `(handler, request)` that `dns_response` puts on worker queues. -/
structure Exchange where
  sink : Nat
  query : Nat
deriving DecidableEq, Repr

/-- One entry of `globalvars.upstreams` (server.py lines 344-348): the worker
queue and the dispatch counter (the thread handle carries no data). -/
structure UpstreamState where
  queue : List Exchange
  count : Nat
deriving DecidableEq, Repr

/-- The body of the dispatch loop in `dns_response` (server.py lines 258-260):
`value['queue'].put((handler, request)); value['count'] += 1`. -/
def putExchange (ex : Exchange) (u : UpstreamState) : UpstreamState :=
  { queue := u.queue ++ [ex], count := u.count + 1 }

/-- Enqueue the exchange to every named member of a rule group's pool, in pool
order, on the shared upstream table. -/
def putToMembers (ex : Exchange) (members : List String)
    (tbl : String → UpstreamState) : String → UpstreamState :=
  members.foldl (fun t nm => fun n => if n = nm then putExchange ex (t n) else t n) tbl

/-- One entry of `globalvars.rules` (server.py lines 372-376): the compiled
filter lists and the names of the member upstreams (references into the shared
`globalvars.upstreams` table). -/
structure RuleGroup where
  black : List Str
  white : List Str
  members : List String

/-- The upstream-forwarding stage of `dns_response` (server.py lines 253-261):
walk the rule groups in configuration order; at the first group whose rule
classifies the query name as blocked, enqueue the exchange to every member of
that group's pool and stop (`break`). -/
def forwardUpstream (ex : Exchange) (qn : Str) :
    List RuleGroup → (String → UpstreamState) → (String → UpstreamState)
  | [], tbl => tbl
  | g :: rest, tbl =>
    if isBlock g.black g.white qn then putToMembers ex g.members tbl
    else forwardUpstream ex qn rest tbl

/-! ### Upstream worker (server.py lines 201-236) -/

/-- A parsed DNS answer record as the worker sees it through dnslib:
owner name, record type (`QTYPE` code: A = 1, AAAA = 28), and rdata. -/
structure DNSRR where
  rname : Str
  rtype : Nat
  rdata : Str
deriving DecidableEq, Repr

/-- `QTYPE.A` in dnslib. -/
def qtypeA : Nat := 1

/-- `QTYPE.AAAA` in dnslib. -/
def qtypeAAAA : Nat := 28

/-- A parsed DNS reply: header id, question name, and the answer section
(`reply.rr`). -/
structure DNSReply where
  ident : Nat
  qname : Str
  rr : List DNSRR
deriving DecidableEq, Repr

/-- Outcome of one upstream exchange as seen inside the worker's try block:
either an exception (I/O error, timeout, or `DNSRecord.parse` failure) or a
successfully parsed reply. -/
inductive UpstreamOutcome where
  | err : UpstreamOutcome
  | reply : DNSReply → UpstreamOutcome
deriving DecidableEq, Repr

/-- What one iteration of `lookup_upstream_worker` sends to the reply sink
(server.py lines 207-236): nothing on an exception; nothing when the parsed
reply's answer section is empty (`if reply.rr:`); otherwise the parsed reply
itself, re-packed unchanged (`handler.send_data(reply.pack())`). -/
def lookupUpstreamOnce : UpstreamOutcome → Option DNSReply
  | .err => none
  | .reply r => if r.rr.isEmpty then none else some r

/-- Effect of one iteration of `lookup_upstream_worker` on the upstream's own
table entry: `queue.get()` removes the head; neither the success path nor the
except path touches `count` or any other stored field. -/
def workerProcess : UpstreamOutcome → UpstreamState → UpstreamState
  | .err, u => { queue := u.queue.tail, count := u.count }
  | .reply _, u => { queue := u.queue.tail, count := u.count }

/-! ### Response sanitizer of the specification -/

/-- Modelled from the spec: the Response Sanitizer (spec section 4.4), which has
no counterpart in `src/homedns/server.py`. Stated from the spec's words, for
comparison with `lookupUpstreamOnce`: remove every A/AAAA answer whose address
is in the bogus set; if something was removed and a hijack address is
configured, append one synthetic A (AAAA when the address contains a colon)
record bound to the original query name. -/
def specSanitize (bogus : List Str) (hijack : Str) (r : DNSReply) : DNSReply :=
  let kept := r.rr.filter
    (fun a => !((a.rtype == qtypeA || a.rtype == qtypeAAAA) && bogus.contains a.rdata))
  if kept.length < r.rr.length && !hijack.isEmpty then
    { r with rr := kept ++ [⟨r.qname, if hijack.contains ':' then qtypeAAAA else qtypeA, hijack⟩] }
  else
    { r with rr := kept }

/-! ### Concrete sample data used by closed theorems -/

/-- Swap the case of an ASCII letter; other characters unchanged. Used to build
a query name that differs from a stored entry only in letter case. -/
def flipChar (c : Char) : Char :=
  if c.isLower then c.toUpper else if c.isUpper then c.toLower else c

/-- A parsed upstream reply whose only answer is an A record carrying the
address `1.2.3.4` — the spec's own bogus-address scenario. -/
def replyBogus : DNSReply :=
  ⟨1, strOf "dns.test", [⟨strOf "dns.test", qtypeA, strOf "1.2.3.4"⟩]⟩

/-- Sample exchange (reply sink 0, query 0). -/
def ex0 : Exchange := ⟨0, 0⟩

/-- Sample rule group whose blacklist is empty: blocks nothing. -/
def groupNone : RuleGroup := ⟨[], [], ["c"]⟩

/-- Sample rule group with the match-all entry `*` and pool `["a"]`. -/
def groupAllA : RuleGroup := ⟨[strOf "*"], [], ["a"]⟩

/-- Sample rule group with the match-all entry `*` and pool `["b"]`. -/
def groupAllB : RuleGroup := ⟨[strOf "*"], [], ["b"]⟩

/-- Sample upstream table: every upstream starts with an empty queue and a
zero dispatch counter, as in `init_config` (server.py lines 344-348). -/
def tbl0 : String → UpstreamState := fun _ => ⟨[], 0⟩

/-! ### Helper lemmas -/

theorem putToMembers_apply (ex : Exchange) (members : List String)
    (tbl : String → UpstreamState) (n : String) :
    putToMembers ex members tbl n = (putExchange ex)^[members.count n] (tbl n) := by
  induction members generalizing tbl with
  | nil => rfl
  | cons m ms ih =>
    rw [show putToMembers ex (m :: ms) tbl
        = putToMembers ex ms (fun k => if k = m then putExchange ex (tbl k) else tbl k) from rfl,
      ih]
    by_cases h : n = m
    · subst h
      simp [List.count_cons, Function.iterate_succ_apply]
    · simp [List.count_cons, h]

theorem iterate_putExchange (ex : Exchange) (n : Nat) (u : UpstreamState) :
    (putExchange ex)^[n] u = ⟨u.queue ++ List.replicate n ex, u.count + n⟩ := by
  induction n generalizing u with
  | zero => simp
  | succ k ih =>
    rw [Function.iterate_succ_apply, ih]
    simp [putExchange, List.replicate_succ]
    omega

theorem forward_first_blocked (ex : Exchange) (qn : Str) (pre : List RuleGroup)
    (g : RuleGroup) (post : List RuleGroup) (tbl : String → UpstreamState)
    (hpre : ∀ g' ∈ pre, isBlock g'.black g'.white qn = false)
    (hg : isBlock g.black g.white qn = true) :
    forwardUpstream ex qn (pre ++ g :: post) tbl = putToMembers ex g.members tbl := by
  induction pre with
  | nil => simp [forwardUpstream, hg]
  | cons p ps ih =>
    have hp := hpre p (by simp)
    simp only [List.cons_append, forwardUpstream, hp, Bool.false_eq_true, if_false]
    exact ih (fun g' hg' => hpre g' (by simp [hg']))

theorem self_mem_viewStates (s : AdblockState) (steps : List UpdStep) :
    s ∈ viewStates s steps := by
  cases steps <;> simp [viewStates]

theorem cleared_mem_viewStates (s : AdblockState) (adds : List UpdStep) :
    AdblockState.mk [] [] true ∈ viewStates s (updateSteps adds) := by
  simp only [updateSteps, viewStates, applyStep]
  exact List.mem_cons_of_mem _ (List.mem_cons_of_mem _ (List.mem_cons_of_mem _
    (self_mem_viewStates _ _)))

/-! ### Character-case lemmas (for the case-sensitivity of classification) -/

theorem char_toNat_ofNat {n : Nat} (h : n.isValidChar) : (Char.ofNat n).toNat = n := by
  rw [Char.ofNat, dif_pos h]
  rfl

theorem toLower_def (c : Char) :
    c.toLower = if c.toNat ≥ 65 ∧ c.toNat ≤ 90 then Char.ofNat (c.toNat + 32) else c := rfl

theorem toUpper_def (c : Char) :
    c.toUpper = if c.toNat ≥ 97 ∧ c.toNat ≤ 122 then Char.ofNat (c.toNat - 32) else c := rfl

theorem isLower_iff (c : Char) : c.isLower = true ↔ 97 ≤ c.toNat ∧ c.toNat ≤ 122 := by
  simp [Char.isLower, UInt32.le_def, BitVec.le_def, Char.toNat, UInt32.toNat]

theorem isUpper_iff (c : Char) : c.isUpper = true ↔ 65 ≤ c.toNat ∧ c.toNat ≤ 90 := by
  simp [Char.isUpper, UInt32.le_def, BitVec.le_def, Char.toNat, UInt32.toNat]

theorem char_eq_of_toNat_eq {a b : Char} (h : a.toNat = b.toNat) : a = b :=
  Char.eq_of_val_eq (UInt32.toNat.inj h)

theorem isLower_isUpper_exclusive (c : Char) : ¬(c.isLower = true ∧ c.isUpper = true) := by
  rw [isLower_iff, isUpper_iff]
  omega

theorem toUpper_toNat_of_lower {c : Char} (h : c.isLower = true) :
    (c.toUpper).toNat = c.toNat - 32 := by
  obtain ⟨h1, h2⟩ := (isLower_iff c).mp h
  rw [toUpper_def, if_pos ⟨h1, h2⟩, char_toNat_ofNat (Or.inl (by omega))]

theorem toLower_toNat_of_upper {c : Char} (h : c.isUpper = true) :
    (c.toLower).toNat = c.toNat + 32 := by
  obtain ⟨h1, h2⟩ := (isUpper_iff c).mp h
  rw [toLower_def, if_pos ⟨h1, h2⟩, char_toNat_ofNat (Or.inl (by omega))]

theorem toLower_eq_self_of_not_upper {c : Char} (h : ¬(65 ≤ c.toNat ∧ c.toNat ≤ 90)) :
    c.toLower = c := by
  rw [toLower_def, if_neg h]

theorem flipChar_toLower (c : Char) : (flipChar c).toLower = c.toLower := by
  by_cases hl : c.isLower = true
  · obtain ⟨h1, h2⟩ := (isLower_iff c).mp hl
    have hup := toUpper_toNat_of_lower hl
    have hlo : c.toLower = c := toLower_eq_self_of_not_upper (by omega)
    apply char_eq_of_toNat_eq
    rw [hlo, flipChar, if_pos hl, toLower_def, if_pos (by omega),
      char_toNat_ofNat (Or.inl (by omega))]
    omega
  · by_cases hu : c.isUpper = true
    · obtain ⟨h1, h2⟩ := (isUpper_iff c).mp hu
      have hlo := toLower_toNat_of_upper hu
      rw [flipChar, if_neg hl, if_pos hu]
      apply char_eq_of_toNat_eq
      rw [toLower_eq_self_of_not_upper (by omega)]
    · rw [flipChar, if_neg hl, if_neg hu]

theorem flipChar_ne_of_alpha {c : Char} (h : c.isAlpha = true) : flipChar c ≠ c := by
  intro heq
  rcases Bool.or_eq_true _ _ |>.mp (by simpa [Char.isAlpha] using h) with hu | hl
  · obtain ⟨h1, h2⟩ := (isUpper_iff c).mp hu
    have hl' : c.isLower = false := by
      rcases Bool.eq_false_or_eq_true c.isLower with h' | h'
      · exact absurd ⟨h', hu⟩ (isLower_isUpper_exclusive c)
      · exact h'
    have := toLower_toNat_of_upper hu
    rw [flipChar, if_neg (by simp [hl']), if_pos hu] at heq
    have := congrArg Char.toNat heq
    omega
  · obtain ⟨h1, h2⟩ := (isLower_iff c).mp hl
    have := toUpper_toNat_of_lower hl
    rw [flipChar, if_pos hl] at heq
    have := congrArg Char.toNat heq
    omega

theorem map_flipChar_ne : ∀ (d : Str), (∃ c ∈ d, c.isAlpha = true) → d.map flipChar ≠ d
  | [], h => by simp at h
  | a :: t, h => by
    intro heq
    rw [List.map_cons] at heq
    injection heq with h1 h2
    rcases h with ⟨c, hc, hal⟩
    rcases List.mem_cons.mp hc with rfl | hct
    · exact flipChar_ne_of_alpha hal h1
    · exact map_flipChar_ne t ⟨c, hct, hal⟩ h2

theorem map_flipChar_toLower (d : Str) :
    (d.map flipChar).map Char.toLower = d.map Char.toLower := by
  induction d with
  | nil => rfl
  | cons a t ih => simp [ih, flipChar_toLower]

theorem case_flip_not_blocked {d : Str} (hstar : d ≠ strOf "*")
    (h : ∃ c ∈ d, c.isAlpha = true) :
    isBlock [d] [] (d.map flipChar) = false := by
  have hne : d ≠ [] := by rintro rfl; simp at h
  have hlen : (d.map flipChar).length = d.length := List.length_map _ _
  have h1 : (d == strOf "*") = false := by simpa using hstar
  have h2 : (pyNegSlice (d.map flipChar) d.length == d) = false := by
    have hd0 : ¬(d.length = 0) := by simpa [List.length_eq_zero] using hne
    have hz : (d.map flipChar).length - d.length = 0 := by omega
    rw [pyNegSlice, if_neg hd0, hz, List.drop_zero]
    simpa using map_flipChar_ne d h
  simp [isBlock, inList, h1, h2]

theorem createLine_lower {raw : Str} {p : Bool × Str} (h : createLine raw = some p) :
    ∃ s : Str, p.2 = s.map Char.toLower := by
  simp only [createLine] at h
  repeat' split at h
  all_goals try exact Option.noConfusion h
  all_goals obtain rfl := Option.some.inj h
  all_goals exact ⟨_, rfl⟩

/-! ### Claims -/

/-- C4: for every host string and every pair of blacklist/whitelist sets,
`isBlock host` returns true if and only if some blacklist entry matches `host`
and no whitelist entry matches `host`, where an entry `d` matches exactly when
`d` is the string `*` or the Python slice `host[-len(d):]` equals `d` — a raw
character-suffix comparison with no dot-boundary enforcement, so entry
`ads.example.com` matches both `x.ads.example.com` and `badads.example.com`. -/
theorem c4_isBlock_iff :
    (∀ (black white : List Str) (host : Str),
      isBlock black white host = true ↔
        ((∃ d ∈ black, d = strOf "*" ∨ pyNegSlice host d.length = d) ∧
         ∀ d ∈ white, ¬(d = strOf "*" ∨ pyNegSlice host d.length = d)))
    ∧ isBlock [strOf "ads.example.com"] [] (strOf "x.ads.example.com") = true
    ∧ isBlock [strOf "ads.example.com"] [] (strOf "badads.example.com") = true := by
  refine ⟨fun black white host => ?_, by decide, by decide⟩
  simp only [isBlock, Bool.and_eq_true, Bool.not_eq_true', inList, List.any_eq_true,
    List.any_eq_false, Bool.or_eq_true, beq_iff_eq]
  exact And.comm

/-- C8: `BaseLoader.isNeedUpdate(refresh)` is true for a local source exactly
when the file's current modification time differs from the time captured at
the last load, and for a remote source exactly when the current wall-clock
time strictly exceeds the last-load time plus the refresh interval. -/
theorem c8_staleness_iff :
    ∀ lastUpdateTime mtime now refresh : Int,
      (loaderIsNeedUpdate true lastUpdateTime mtime now refresh = true ↔
        lastUpdateTime ≠ mtime)
      ∧ (loaderIsNeedUpdate false lastUpdateTime mtime now refresh = true ↔
        lastUpdateTime + refresh < now) := by
  intro l m n r
  constructor <;> simp [loaderIsNeedUpdate]

/-- C9: one iteration of `lookup_upstream_worker` sends a reply to the reply
sink exactly when the parsed reply's answer section is non-empty; a
well-formed reply with zero answer records (NXDOMAIN/NODATA) produces no
response to the client at all. -/
theorem c9_empty_reply_not_sent :
    ∀ r : DNSReply,
      ((lookupUpstreamOnce (.reply r)).isSome = !r.rr.isEmpty)
      ∧ (lookupUpstreamOnce (.reply r) = none ↔ r.rr = []) := by
  intro r
  constructor
  · by_cases h : r.rr.isEmpty <;> simp [lookupUpstreamOnce, h]
  · by_cases h : r.rr.isEmpty
    · simp [lookupUpstreamOnce, h, List.isEmpty_iff.mp h]
    · simp only [lookupUpstreamOnce, h]
      simpa using fun he => h (by simp [he])

/-- C10: `Adblock.create` lowercases every stored blacklist/whitelist entry,
but classification compares the queried host as given, so suffix matching is
case-sensitive: for every non-`*` entry `d` containing an ASCII letter there
is a query name equal to `d` up to letter case (and different from `d`) that
`isBlock` does not block. -/
theorem c10_case_sensitive_matching :
    (∀ (lines : List Str) (e : Str),
      e ∈ createBlacklist lines ∨ e ∈ createWhitelist lines →
      ∃ s : Str, e = s.map Char.toLower)
    ∧ (∀ d : Str, d ≠ strOf "*" → (∃ c ∈ d, c.isAlpha = true) →
      ∃ host : Str, host ≠ d ∧ host.map Char.toLower = d.map Char.toLower ∧
        isBlock [d] [] host = false) := by
  constructor
  · intro lines e he
    have key : ∀ p ∈ createEntries lines, ∃ s : Str, p.2 = s.map Char.toLower := by
      intro p hp
      rcases List.mem_filterMap.mp hp with ⟨raw, _, hcl⟩
      exact createLine_lower hcl
    rcases he with h | h
    · rcases List.mem_filterMap.mp h with ⟨p, hp, hpe⟩
      by_cases h1 : p.1 <;> simp [h1] at hpe
      rw [← hpe]
      exact key p hp
    · rcases List.mem_filterMap.mp h with ⟨p, hp, hpe⟩
      by_cases h1 : p.1 <;> simp [h1] at hpe
      rw [← hpe]
      exact key p hp
  · intro d hstar halpha
    exact ⟨d.map flipChar, map_flipChar_ne d halpha, map_flipChar_toLower d,
      case_flip_not_blocked hstar halpha⟩

/-- Witness for C10: the compiler stores `ads.com` (lowercased from `ADS.Com`)
and that entry fails to block a case-variant query name. -/
theorem c10_witness :
    ((strOf "ads.com" ∈ createBlacklist [strOf "ADS.Com"] ∨
        strOf "ads.com" ∈ createWhitelist [strOf "ADS.Com"])
      ∧ (∃ s : Str, strOf "ads.com" = s.map Char.toLower))
    ∧ (strOf "ads.com" ≠ strOf "*"
      ∧ (∃ c ∈ strOf "ads.com", c.isAlpha = true)
      ∧ ∃ host : Str, host ≠ strOf "ads.com" ∧
          host.map Char.toLower = (strOf "ads.com").map Char.toLower ∧
          isBlock [strOf "ads.com"] [] host = false) :=
  ⟨⟨Or.inl (by decide),
      c10_case_sensitive_matching.1 [strOf "ADS.Com"] _ (Or.inl (by decide))⟩,
    ⟨by decide, ⟨'a', by decide, by decide⟩,
      c10_case_sensitive_matching.2 (strOf "ads.com") (by decide)
        ⟨'a', by decide, by decide⟩⟩⟩

/-- C7: for every query that reaches the forwarding stage, rule groups are
tried in configuration order and the first group whose lists classify the
query name as blocked is the only group whose upstreams receive the query:
the upstream table changes exactly by that group's enqueues, and every
upstream outside that group's pool is untouched, regardless of whether later
groups (in `post`) would also classify the name as blocked. -/
theorem c7_first_blocked_group_exclusive
    (pre : List RuleGroup) (g : RuleGroup) (post : List RuleGroup)
    (qn : Str) (ex : Exchange) (tbl : String → UpstreamState)
    (hpre : ∀ g' ∈ pre, isBlock g'.black g'.white qn = false)
    (hg : isBlock g.black g.white qn = true) :
    forwardUpstream ex qn (pre ++ g :: post) tbl = putToMembers ex g.members tbl
    ∧ ∀ n, n ∉ g.members → forwardUpstream ex qn (pre ++ g :: post) tbl n = tbl n := by
  have h := forward_first_blocked ex qn pre g post tbl hpre hg
  refine ⟨h, fun n hn => ?_⟩
  rw [h, putToMembers_apply, List.count_eq_zero.mpr hn]
  rfl

/-- Witness for C7: with a non-matching first group, a matching second group
with pool `["a"]`, and a matching third group with pool `["b"]`, only the
second group's pool receives the exchange; `"b"` stays untouched. -/
theorem c7_witness :
    (∀ g' ∈ [groupNone], isBlock g'.black g'.white (strOf "x.com") = false)
    ∧ isBlock groupAllA.black groupAllA.white (strOf "x.com") = true
    ∧ (forwardUpstream ex0 (strOf "x.com") ([groupNone] ++ groupAllA :: [groupAllB]) tbl0
        = putToMembers ex0 groupAllA.members tbl0
      ∧ ∀ n, n ∉ groupAllA.members →
          forwardUpstream ex0 (strOf "x.com") ([groupNone] ++ groupAllA :: [groupAllB]) tbl0 n
            = tbl0 n) :=
  ⟨by decide, by decide,
    c7_first_blocked_group_exclusive [groupNone] groupAllA [groupAllB]
      (strOf "x.com") ex0 tbl0 (by decide) (by decide)⟩

/-- C1 counterexample: the claim says the dispatcher selects the single
highest-priority pool member and enqueues the exchange to exactly that one
upstream, no other member receiving it. In the code (`dns_response`,
server.py lines 258-260) there is no priority selection at all: with one
matched rule group whose pool is `["a", "b"]`, BOTH members' queues receive
the exchange (and both dispatch counters are incremented). -/
theorem c1_counterexample :
    forwardUpstream ex0 (strOf "x.com") [⟨[strOf "*"], [], ["a", "b"]⟩] tbl0 "a"
      = ⟨[ex0], 1⟩
    ∧ forwardUpstream ex0 (strOf "x.com") [⟨[strOf "*"], [], ["a", "b"]⟩] tbl0 "b"
      = ⟨[ex0], 1⟩ := by
  exact ⟨by decide, by decide⟩

/-- C1 (amended): for every query forwarded upstream, the dispatcher resolves
the first matched rule group's pool and enqueues the (reply-sink, query)
exchange to EVERY member of that pool — each member's queue receives the
exchange once per occurrence of its name in the pool (at least once), and its
dispatch counter is incremented accordingly. -/
theorem c1_every_pool_member_enqueued
    (pre : List RuleGroup) (g : RuleGroup) (post : List RuleGroup)
    (qn : Str) (ex : Exchange) (tbl : String → UpstreamState)
    (hpre : ∀ g' ∈ pre, isBlock g'.black g'.white qn = false)
    (hg : isBlock g.black g.white qn = true)
    (nm : String) (hnm : nm ∈ g.members) :
    forwardUpstream ex qn (pre ++ g :: post) tbl nm
      = ⟨(tbl nm).queue ++ List.replicate (g.members.count nm) ex,
          (tbl nm).count + g.members.count nm⟩
    ∧ 1 ≤ g.members.count nm := by
  have h := forward_first_blocked ex qn pre g post tbl hpre hg
  constructor
  · rw [h, putToMembers_apply, iterate_putExchange]
  · exact List.count_pos_iff.mpr hnm

/-- Witness for C1's amended theorem at the pool `["a", "b"]`: member `"b"`
(not selected by any priority rule) receives the exchange. -/
theorem c1_witness :
    (∀ g' ∈ ([] : List RuleGroup), isBlock g'.black g'.white (strOf "x.com") = false)
    ∧ isBlock ([strOf "*"] : List Str) ([] : List Str) (strOf "x.com") = true
    ∧ "b" ∈ ["a", "b"]
    ∧ (forwardUpstream ex0 (strOf "x.com") ([] ++ (⟨[strOf "*"], [], ["a", "b"]⟩ : RuleGroup) :: []) tbl0 "b"
        = ⟨(tbl0 "b").queue ++ List.replicate ((["a", "b"] : List String).count "b") ex0,
            (tbl0 "b").count + (["a", "b"] : List String).count "b"⟩
      ∧ 1 ≤ (["a", "b"] : List String).count "b") :=
  ⟨by decide, by decide, by decide,
    c1_every_pool_member_enqueued [] ⟨[strOf "*"], [], ["a", "b"]⟩ []
      (strOf "x.com") ex0 tbl0 (by decide) (by decide) "b" (by decide)⟩

/-- C2 counterexample: the claim says bogus A/AAAA answers are removed and a
hijack record substituted before delivery. The worker (server.py lines
216-228) performs no such step: with the spec's own scenario — bogus set
`{1.2.3.4}`, hijack address `5.6.7.8` — a reply whose only answer is an A
record `1.2.3.4` is delivered to the client exactly as parsed, while the
spec's sanitizer would have delivered a single A record `5.6.7.8`. -/
theorem c2_counterexample :
    lookupUpstreamOnce (.reply replyBogus) = some replyBogus
    ∧ specSanitize [strOf "1.2.3.4"] (strOf "5.6.7.8") replyBogus ≠ replyBogus
    ∧ (specSanitize [strOf "1.2.3.4"] (strOf "5.6.7.8") replyBogus).rr
        = [⟨strOf "dns.test", qtypeA, strOf "5.6.7.8"⟩]
    ∧ replyBogus.rr = [⟨strOf "dns.test", qtypeA, strOf "1.2.3.4"⟩] := by
  refine ⟨by decide, by decide, by decide, by decide⟩

/-- C2 (amended): the worker applies no sanitization at all — whenever it
delivers a reply to the client, the delivered reply is the parsed upstream
reply unchanged, answer section included; no record is removed and no hijack
record is appended. -/
theorem c2_reply_delivered_unchanged :
    ∀ (r d : DNSReply), lookupUpstreamOnce (.reply r) = some d → d = r ∧ d.rr = r.rr := by
  intro r d h
  simp only [lookupUpstreamOnce] at h
  split at h
  · exact Option.noConfusion h
  · obtain rfl := Option.some.inj h
    exact ⟨rfl, rfl⟩

/-- Witness for C2's amended theorem at the spec's bogus-reply scenario. -/
theorem c2_witness :
    lookupUpstreamOnce (.reply replyBogus) = some replyBogus
    ∧ (replyBogus = replyBogus ∧ replyBogus.rr = replyBogus.rr) :=
  ⟨by decide, c2_reply_delivered_unchanged replyBogus replyBogus (by decide)⟩

/-- C3 counterexample: the claim says a successful exchange increments the
chosen upstream's priority by 5 (capped at 100) and that every upstream's
score stays inside [0,100]. The code keeps no priority at all: a successful
exchange leaves the upstream's table entry unchanged apart from the dequeue
(count stays 40, not 45), and the only numeric per-upstream state — the
dispatch counter — reaches 101 after 101 enqueues, outside [0,100]. -/
theorem c3_counterexample :
    workerProcess (.reply replyBogus) ⟨[ex0], 40⟩ = ⟨[], 40⟩
    ∧ workerProcess .err ⟨[ex0], 40⟩ = ⟨[], 40⟩
    ∧ ((putExchange ex0)^[101] ⟨[], 0⟩).count = 101
    ∧ ¬(((putExchange ex0)^[101] ⟨[], 0⟩).count ≤ 100) := by
  refine ⟨by decide, by decide, ?_, ?_⟩
  · rw [iterate_putExchange]
  · rw [iterate_putExchange]
    decide

/-- C3 (amended): upstream servers carry no priority score. The outcome of an
exchange (success or failure) never changes the upstream's stored state — the
worker only dequeues — and the only numeric per-upstream field, the dispatch
counter, grows by exactly 1 per enqueue without any upper bound. -/
theorem c3_no_priority_adjustment :
    (∀ (o o' : UpstreamOutcome) (u : UpstreamState), workerProcess o u = workerProcess o' u)
    ∧ (∀ (o : UpstreamOutcome) (u : UpstreamState), (workerProcess o u).count = u.count)
    ∧ (∀ (ex : Exchange) (n : Nat) (u : UpstreamState),
        (putExchange ex)^[n] u = ⟨u.queue ++ List.replicate n ex, u.count + n⟩) := by
  refine ⟨fun o o' u => ?_, fun o u => ?_, iterate_putExchange⟩
  · cases o <;> cases o' <;> rfl
  · cases o <;> rfl

/-- C5 counterexample: the claim says a concurrent reader always observes a
complete pre- or post-refresh snapshot and that a failed refresh retains the
prior snapshot. In the code (`Adblock.update`, adblock.py lines 43-47) the
sets are cleared in place and refilled element by element: during a refresh
that replaces blacklist `{a.com}` with `{b.com}`, the state with BOTH sets
empty is observable — matching neither snapshot — and a refresh whose load
raises leaves the sets empty instead of restoring `{a.com}`. -/
theorem c5_counterexample :
    AdblockState.mk [] [] true ∈
      viewStates ⟨[strOf "a.com"], [], false⟩ (updateSteps (createAdds [strOf "b.com"]))
    ∧ (AdblockState.mk [] [] true).blacklist ≠ [strOf "a.com"]
    ∧ (AdblockState.mk [] [] true).blacklist
        ≠ (runSteps ⟨[strOf "a.com"], [], false⟩
            (updateSteps (createAdds [strOf "b.com"]))).blacklist
    ∧ (runSteps ⟨[strOf "a.com"], [], false⟩
        (updateSteps (createAdds [strOf "b.com"]))).blacklist = [strOf "b.com"]
    ∧ (adblockUpdate none ⟨[strOf "a.com"], [], false⟩).1 ≠ ⟨[strOf "a.com"], [], false⟩ := by
  refine ⟨by decide, by decide, by decide, by decide, by decide⟩

/-- C5 (amended): during every refresh a concurrent reader can observe the
fully-cleared intermediate state (both sets empty, `updating` set), which is
neither the pre- nor the post-refresh snapshot whenever either snapshot is
non-empty; and a refresh whose load step raises leaves exactly that cleared
state behind instead of retaining the prior snapshot. -/
theorem c5_mid_refresh_observable :
    (∀ (s : AdblockState) (adds : List UpdStep),
      AdblockState.mk [] [] true ∈ viewStates s (updateSteps adds))
    ∧ (∀ s : AdblockState, (adblockUpdate none s).1 = AdblockState.mk [] [] true) :=
  ⟨fun s adds => cleared_mem_viewStates s adds, fun _ => rfl⟩

/-- C6 counterexample: the claim says `updating` is cleared whether the
rebuild succeeds or raises, so a later staleness check can start a new
refresh. When `loader.open()` raises, `Adblock.update` (adblock.py lines
40-48, no try/finally) never reaches `self.updating = False`: after the
failed attempt `updating` is still true, and the very staleness check that
would fire in that environment (`isNeedUpdate`, adblock.py lines 24-27)
returns false instead. -/
theorem c6_counterexample :
    (adblockUpdate none ⟨[strOf "a.com"], [], false⟩).1.updating = true
    ∧ adblockIsNeedUpdate (adblockUpdate none ⟨[strOf "a.com"], [], false⟩).1
        28800 true 0 1 2 = false
    ∧ adblockIsNeedUpdate ⟨[strOf "a.com"], [], false⟩ 28800 true 0 1 2 = true := by
  refine ⟨by decide, by decide, by decide⟩

/-- C6 (amended): while `updating` is true the staleness check reports false,
so no new refresh is started; a refresh whose rebuild completes clears
`updating`; but a refresh whose load raises leaves `updating` true, and from
that state every later staleness check returns false — the instance can never
refresh again. -/
theorem c6_updating_flag :
    (∀ (bl wl : List Str) (refresh : Int) (isLocal : Bool) (lastT mt now : Int),
      adblockIsNeedUpdate ⟨bl, wl, true⟩ refresh isLocal lastT mt now = false)
    ∧ (∀ (adds : List UpdStep) (s : AdblockState),
      (adblockUpdate (some adds) s).1.updating = false)
    ∧ (∀ s : AdblockState, (adblockUpdate none s).1.updating = true)
    ∧ (∀ (s : AdblockState) (refresh : Int) (isLocal : Bool) (lastT mt now : Int),
      adblockIsNeedUpdate (adblockUpdate none s).1 refresh isLocal lastT mt now = false) := by
  refine ⟨fun bl wl r il lt mt n => ?_, fun adds s => ?_, fun s => rfl,
    fun s r il lt mt n => ?_⟩
  · simp [adblockIsNeedUpdate]
  · show (runSteps s (updateSteps adds)).updating = false
    simp [runSteps, updateSteps, List.foldl_append, applyStep]
  · simp [adblockIsNeedUpdate, adblockUpdate, runSteps, applyStep]

end HomeDNS
